import Mathlib

/-
Verification of the biscuit command-registry and AI-provider subsystem.

Shallow embedding of two source files:
  src/biscuit/settings/settings.py  (command registry, Formattable url rule)
  src/biscuit/views/ai/ai.py        (provider/session controller, secret store)

Callbacks and chat-model backends are opaque to the properties verified here,
so a callback is represented by a natural-number identifier and a live chat
backend by a Session record carrying an identity number.
-/

namespace Biscuit

/-- A palette command: a display label paired with a callback identifier. -/
abbrev Command := String × Nat

/-- Modelled from the spec: the ActionSet value object lives in biscuit.common,
outside the given sources.  Per the spec it is an immutable record of a title,
a palette token (named pfx here), an ordered item list and a pinned list
defaulting to empty. -/
structure ActionSet where
  title : String
  pfx : String
  items : List Command
  pinned : List Command
deriving DecidableEq

/-- State of the Settings object: the mutable command sequence and the cached
derived ActionSet.  In the source the cache attribute does not exist until the
first generation, hence the Option. -/
structure SettingsState where
  commands : List Command
  _actionset : Option ActionSet
deriving DecidableEq

/-- Settings state right after construction: empty command list, no cached set. -/
def settingsInit : SettingsState := ⟨[], none⟩

/-- Embeds Settings.generate_actionset.  The games argument is the value of
get_games at the moment of the call; get_games is an external dynamic source
outside the given sources, so it is passed in as a parameter. -/
def generate_actionset (games : List Command) (s : SettingsState) : SettingsState :=
  { s with _actionset := some ⟨"Show and run commands", ">", s.commands ++ games, []⟩ }

/-- Embeds Settings.register_command: append the entry, then synchronously
regenerate the cached ActionSet. -/
def register_command (games : List Command) (s : SettingsState)
    (command : String) (callback : Nat) : SettingsState :=
  generate_actionset games { s with commands := s.commands ++ [(command, callback)] }

/-- Embeds the Settings.actionset property: it returns the cached value. -/
def actionset (s : SettingsState) : Option ActionSet := s._actionset

/-- Embeds the command-list part of Settings.late_setup: the command sequence
is reassigned wholesale to the list extracted from the editor commands
(extract_commands and formalize_command are external, so the extracted list is
a parameter), then the ActionSet is regenerated.  The palette registrations and
the clone and symbol ActionSets built afterwards do not touch the command
sequence and are omitted. -/
def late_setup (extracted : List Command) (games : List Command)
    (s : SettingsState) : SettingsState :=
  generate_actionset games { s with commands := extracted }

/-- One register_command call together with the external get_games value at the
moment of that call. -/
structure RegCall where
  label : String
  cb : Nat
  games : List Command
deriving DecidableEq

/-- Runs a sequence of register_command calls from a given state. -/
def runRegs (s : SettingsState) : List RegCall → SettingsState
  | [] => s
  | r :: rs => runRegs (register_command r.games s r.label r.cb) rs

/-- A piece of a format template: literal text or the positional hole.  The one
source template has a single hole; the single argument is substituted at each
hole. -/
inductive FmtPart where
  | lit (s : String)
  | hole
deriving DecidableEq

/-- Substitution of one argument into a template, embedding str.format as used
by the source. -/
def strFormat : List FmtPart → String → String
  | [], _ => ""
  | FmtPart.lit s :: rest, t => s ++ strFormat rest t
  | FmtPart.hole :: rest, t => t ++ strFormat rest t

/-- Embeds the module-level regular expression URL, whose pattern accepts http
followed by an optional s followed by a colon, anchored at the start and
case-sensitive.  The two slashes are not part of the pattern. -/
def URL_match (term : String) : Bool :=
  term.data.take 5 = "http:".data || term.data.take 6 = "https:".data

/-- Embeds Formattable.format: keep the term verbatim when it is empty or
matches URL, otherwise substitute it with the fixed github base prepended. -/
def Formattable.format (tmpl : List FmtPart) (term : String) : String :=
  if (term == "") || URL_match term then strFormat tmpl term
  else strFormat tmpl ("https://github.com/" ++ term)

/-- A live chat session: the provider it was built for, the credential it was
built with, and an identity number distinguishing it from every other session
constructed by the same view. -/
structure Session where
  provider : String
  apiKey : String
  sid : Nat
deriving DecidableEq

/-- Construction and destruction events of chat sessions, recorded in order so
that liveness of sessions at intermediate points can be stated. -/
inductive Ev where
  | destroy (sid : Nat)
  | construct (sid : Nat)
deriving DecidableEq

/-- State of the AI view: the stored credential attribute, the selected
provider, the live chat session if any, the rows of the secrets table, whether
the placeholder is shown, and the identity number for the next session. -/
structure AIState where
  api_key : String
  current_provider : String
  chat : Option Session
  secrets : List (String × String)
  placeholderShown : Bool
  nextId : Nat
deriving DecidableEq

/-- Embeds the SELECT by key on the secrets table. -/
def secretsGet (db : List (String × String)) (k : String) : Option String :=
  (db.find? (fun kv => kv.1 == k)).map (fun kv => kv.2)

/-- Embeds INSERT OR REPLACE on the secrets table, whose key column is the
primary key: replace the row for the key when present, append otherwise. -/
def secretsPut (db : List (String × String)) (k v : String) :
    List (String × String) :=
  if db.any (fun kv => kv.1 == k) then
    db.map (fun kv => if kv.1 == k then (k, v) else kv)
  else db ++ [(k, v)]

/-- The AI state assembled by the constructor before the stored credential is
consulted: no credential, default provider, no chat, the given table contents. -/
def aiStart (db : List (String × String)) : AIState :=
  ⟨"", "Gemini 1.5 Flash", none, db, false, 0⟩

/-- Embeds AI.add_placeholder: show the placeholder and, when a chat exists,
remove and destroy it. -/
def add_placeholder (s : AIState) : AIState × List Ev :=
  match s.chat with
  | some c => ({ s with placeholderShown := true, chat := none }, [Ev.destroy c.sid])
  | none => ({ s with placeholderShown := true }, [])

/-- Embeds the first statement of AI.add_chat: the credential attribute is
reassigned only when the argument is truthy, that is, present and non-empty. -/
def upd_key (s : AIState) (api_key : Option String) : AIState :=
  if api_key.getD "" = "" then s else { s with api_key := api_key.getD "" }

/-- Embeds lines 132 to 139 of AI.add_chat: destroy the previous chat when one
exists, then construct the new session and hide the placeholder.  The model
factory lookup is total here because every provider exercised by the claims is
registered. -/
def replace_session (s : AIState) : AIState × List Ev :=
  match s.chat with
  | some c =>
      ({ s with chat := some ⟨s.current_provider, s.api_key, s.nextId⟩,
                nextId := s.nextId + 1, placeholderShown := false },
       [Ev.destroy c.sid, Ev.construct s.nextId])
  | none =>
      ({ s with chat := some ⟨s.current_provider, s.api_key, s.nextId⟩,
                nextId := s.nextId + 1, placeholderShown := false },
       [Ev.construct s.nextId])

/-- Embeds AI.add_chat: update the credential attribute from a truthy argument,
fall back to the placeholder when no credential is known, otherwise upsert the
credential into the secrets table under the single key GEMINI_API_KEY and
replace the session. -/
def add_chat (s : AIState) (api_key : Option String) : AIState × List Ev :=
  if (upd_key s api_key).api_key = "" then add_placeholder (upd_key s api_key)
  else
    replace_session
      { upd_key s api_key with
        secrets := secretsPut (upd_key s api_key).secrets "GEMINI_API_KEY"
            (upd_key s api_key).api_key }

/-- Embeds AI.set_current_provider: no work when the name equals the current
provider, otherwise record the new provider and re-enter add_chat with no
argument. -/
def set_current_provider (s : AIState) (provider : String) : AIState × List Ev :=
  if provider = s.current_provider then (s, [])
  else add_chat { s with current_provider := provider } none

/-- Outcome of the in-place reset offered by the chat backend: the boolean says
whether the provider reset raises. -/
def chat_reset_inplace (ok : Bool) : Except String Unit :=
  if ok then Except.ok () else Except.error "reset failed"

/-- Embeds AI.new_chat: when a chat exists its in-place reset is attempted and
a raise is caught locally, falling through to add_chat with no argument; with
no chat, add_chat is entered directly. -/
def new_chat (s : AIState) (resetOk : Bool) : AIState × List Ev :=
  match s.chat with
  | some _ =>
    match chat_reset_inplace resetOk with
    | Except.ok _ => (s, [])
    | Except.error _ => add_chat s none
  | none => add_chat s none

/-- Embeds the tail of AI.__init__: look up the stored credential and either
activate with it or show the placeholder. -/
def ai_init (db : List (String × String)) : AIState × List Ev :=
  match secretsGet db "GEMINI_API_KEY" with
  | some k => add_chat (aiStart db) (some k)
  | none => add_placeholder (aiStart db)

/-- The operations a caller can perform on the AI view after construction. -/
inductive Op where
  | addChat (k : Option String)
  | setProvider (p : String)
  | newChat (ok : Bool)
  | addPlaceholder
deriving DecidableEq

/-- One controller operation. -/
def step (s : AIState) : Op → AIState × List Ev
  | Op.addChat k => add_chat s k
  | Op.setProvider p => set_current_provider s p
  | Op.newChat ok => new_chat s ok
  | Op.addPlaceholder => add_placeholder s

/-- Runs operations, accumulating the event log. -/
def runFrom (s : AIState) (log : List Ev) : List Op → AIState × List Ev
  | [] => (s, log)
  | op :: ops => runFrom (step s op).1 (log ++ (step s op).2) ops

/-- Full run: construct the view over the given table, then perform the
operations; the second component is the complete ordered event log. -/
def runLog (db : List (String × String)) (ops : List Op) : AIState × List Ev :=
  runFrom (ai_init db).1 (ai_init db).2 ops

/-- Session identities the state considers live. -/
def chatIds (s : AIState) : List Nat :=
  match s.chat with
  | some c => [c.sid]
  | none => []

/-- Effect of one event on the set of live session identities. -/
def aliveStep (l : List Nat) : Ev → List Nat
  | Ev.construct n => n :: l
  | Ev.destroy n => l.erase n

/-- Live session identities after a whole event log. -/
def aliveAfter (evs : List Ev) : List Nat := evs.foldl aliveStep []

/-- Every point of the log, including points inside a single operation, has at
most one live session. -/
def BoundedLog (log : List Ev) : Prop :=
  ∀ pre t, pre ++ t = log → (aliveAfter pre).length ≤ 1

/-- Claim C1: after every register_command call returns, the accessor yields
exactly the ActionSet compiled from the current command sequence, that is, the
commands registered so far in registration order, plus the dynamic extras
merged at that compilation; no stale value is observable after a registration
call returns. -/
theorem actionset_tracks_registrations (s : SettingsState) (rs : List RegCall)
    (r : RegCall) :
    actionset (runRegs s (rs ++ [r])) =
      some ⟨"Show and run commands", ">",
            s.commands ++ (rs ++ [r]).map (fun x => (x.label, x.cb)) ++ r.games,
            []⟩ := by
  induction rs generalizing s with
  | nil =>
      simp [runRegs, register_command, generate_actionset, actionset]
  | cons x xs ih =>
      rw [List.cons_append, runRegs, ih]
      simp [register_command, generate_actionset]

/-- Claim C2 counterexample: the source pattern accepts any term starting with
http or https followed directly by a colon; the two slashes are not required.
The term http:x does not start with a scheme followed by the two slashes, so
the claim requires the github base to be prepended, yet the code returns the
term verbatim. -/
theorem format_colon_only_counterexample :
    URL_match "http:x" = true ∧
    Formattable.format [FmtPart.hole] "http:x" = "http:x" ∧
    ("http:x".data.take 7 ≠ "http://".data ∧
      "http:x".data.take 8 ≠ "https://".data) ∧
    Formattable.format [FmtPart.hole] "http:x" ≠
      strFormat [FmtPart.hole] ("https://github.com/" ++ "http:x") := by
  decide

/-- Claim C2 (amended): if the term starts with http: or https: in lower case,
the two slashes not being required, it is substituted into the template
verbatim; otherwise the fixed base is prepended before substitution; the empty
term is substituted verbatim with no base prepended.  The two concrete
examples of the claim hold as stated. -/
theorem format_github_rule :
    (∀ tmpl term, term = "" ∨ URL_match term = true →
        Formattable.format tmpl term = strFormat tmpl term) ∧
    (∀ tmpl term, term ≠ "" → URL_match term = false →
        Formattable.format tmpl term =
          strFormat tmpl ("https://github.com/" ++ term)) ∧
    Formattable.format [FmtPart.hole] "octocat/Hello-World" =
      "https://github.com/octocat/Hello-World" ∧
    Formattable.format [FmtPart.hole] "https://example.com/x" =
      "https://example.com/x" ∧
    (∀ tmpl, Formattable.format tmpl "" = strFormat tmpl "") := by
  refine ⟨?_, ?_, by decide, by decide, ?_⟩
  · intro tmpl term h
    rcases h with rfl | h
    · simp [Formattable.format]
    · simp [Formattable.format, h]
  · intro tmpl term h1 h2
    simp [Formattable.format, h1, h2]
  · intro tmpl
    simp [Formattable.format]

/-- Witness for the amended C2: the base is prepended to a concrete plain
term. -/
theorem format_github_rule_witness :
    Formattable.format [FmtPart.hole] "abc" =
      strFormat [FmtPart.hole] ("https://github.com/" ++ "abc") :=
  format_github_rule.2.1 [FmtPart.hole] "abc" (by decide) (by decide)

/-- Claim C8 counterexample: registering a command and then running late_setup
with an empty extracted list leaves a command sequence of which the previous
sequence is not a prefix; late_setup reassigns the sequence wholesale. -/
theorem late_setup_drops_commands :
    (register_command [] settingsInit "hello" 1).commands = [("hello", 1)] ∧
    (late_setup [] [] (register_command [] settingsInit "hello" 1)).commands =
      [] ∧
    ¬ ∃ t, (register_command [] settingsInit "hello" 1).commands ++ t =
        (late_setup [] [] (register_command [] settingsInit "hello" 1)).commands := by
  refine ⟨rfl, rfl, ?_⟩
  rintro ⟨t, ht⟩
  simp [register_command, generate_actionset, late_setup, settingsInit] at ht

/-- Claim C8 (amended): register_command only ever appends, so across any
sequence of register_command calls the command sequence before a call is a
prefix of the sequence after it; late_setup however reassigns the sequence
wholesale to the extracted list, discarding earlier entries. -/
theorem register_only_appends :
    (∀ games s c cb, ∃ t,
        s.commands ++ t = (register_command games s c cb).commands) ∧
    (∀ extracted games s, (late_setup extracted games s).commands = extracted) := by
  constructor
  · intro games s c cb
    exact ⟨[(c, cb)], rfl⟩
  · intro e g s
    rfl

/-- Claim C9 counterexample: the extras are sampled when the ActionSet is
generated, not on access.  After registering one command while the external
source holds one game entry, changing the external source does not change what
the accessor returns: the accessor still yields the items frozen at generation
time and not the items recomputed from the changed source. -/
theorem actionset_extras_frozen :
    (actionset (register_command [("solitaire", 100)] settingsInit "cmd" 0)).map
        ActionSet.items = some [("cmd", 0), ("solitaire", 100)] ∧
    (actionset (register_command [("solitaire", 100)] settingsInit "cmd" 0)).map
        ActionSet.items ≠ some [("cmd", 0), ("minesweeper", 101)] := by
  decide

/-- Claim C9 (amended): the accessor returns the stored ActionSet compiled at
the last generation; the dynamic extras are recomputed at each registration,
not at each access, so between registrations every access returns the value
frozen at the last generation regardless of changes to the external source. -/
theorem actionset_returns_cached (games : List Command) (s : SettingsState)
    (c : String) (cb : Nat) :
    actionset (register_command games s c cb) =
      some ⟨"Show and run commands", ">", s.commands ++ [(c, cb)] ++ games, []⟩ ∧
    ∀ s1 : SettingsState, actionset s1 = s1._actionset := by
  constructor
  · simp [register_command, generate_actionset, actionset]
  · intro s1
    rfl

/-- After replacing the row for a present key, the lookup finds the new pair. -/
theorem find_map_put {db : List (String × String)} {k v : String}
    (h : db.any (fun kv => kv.1 == k) = true) :
    (db.map (fun kv => if kv.1 == k then (k, v) else kv)).find?
      (fun kv => kv.1 == k) = some (k, v) := by
  induction db with
  | nil => simp at h
  | cons a rest ih =>
    cases hx : (a.1 == k) with
    | true =>
      rw [List.map_cons, if_pos hx]
      exact List.find?_cons_of_pos _ (by simp)
    | false =>
      have h2 : rest.any (fun kv => kv.1 == k) = true := by
        simpa only [List.any_cons, hx, Bool.false_or] using h
      rw [List.map_cons, if_neg (by simp [hx]),
        List.find?_cons_of_neg _ (by simp [hx])]
      exact ih h2

/-- After appending the row for an absent key, the lookup finds the new pair. -/
theorem find_append_absent {db : List (String × String)} {k v : String}
    (h : db.any (fun kv => kv.1 == k) = false) :
    (db ++ [(k, v)]).find? (fun kv => kv.1 == k) = some (k, v) := by
  induction db with
  | nil => simp [List.find?]
  | cons a rest ih =>
    cases hx : (a.1 == k) with
    | true =>
      simp only [List.any_cons, hx, Bool.true_or] at h
      exact Bool.noConfusion h
    | false =>
      have h2 : rest.any (fun kv => kv.1 == k) = false := by
        simpa only [List.any_cons, hx, Bool.false_or] using h
      rw [List.cons_append, List.find?_cons_of_neg _ (by simp [hx])]
      exact ih h2

/-- A get immediately after a put observes the value just written. -/
theorem secretsGet_put_self (db : List (String × String)) (k v : String) :
    secretsGet (secretsPut db k v) k = some v := by
  cases hA : db.any (fun kv => kv.1 == k) with
  | true =>
    unfold secretsGet secretsPut
    rw [if_pos hA, find_map_put hA]
    rfl
  | false =>
    unfold secretsGet secretsPut
    rw [if_neg (by simp [hA]), find_append_absent hA]
    rfl

/-- A put leaves exactly one row for its key, provided the table respected the
primary key before. -/
theorem countKey_put (db : List (String × String)) (k v : String)
    (h : db.countP (fun kv => kv.1 == k) ≤ 1) :
    (secretsPut db k v).countP (fun kv => kv.1 == k) = 1 := by
  cases hA : db.any (fun kv => kv.1 == k) with
  | true =>
    unfold secretsPut
    rw [if_pos hA]
    have hmap : (db.map (fun kv => if kv.1 == k then (k, v) else kv)).countP
        (fun kv => kv.1 == k) = db.countP (fun kv => kv.1 == k) := by
      rw [List.countP_map]
      apply List.countP_congr
      intro a _
      cases ha : (a.1 == k) with
      | true => simp [Function.comp, ha]
      | false => simp [Function.comp, ha]
    rw [hmap]
    have hpos : 0 < db.countP (fun kv => kv.1 == k) := by
      rw [List.countP_pos_iff]
      exact List.any_eq_true.mp hA
    omega
  | false =>
    unfold secretsPut
    rw [if_neg (by simp [hA])]
    have hzero : db.countP (fun kv => kv.1 == k) = 0 := by
      rw [List.countP_eq_zero]
      intro a ha
      exact (List.any_eq_false.mp hA) a ha
    rw [List.countP_append, hzero]
    simp

/-- Claim C4: put is an upsert keyed by the secret name keeping at most one row
per key, and its effect is visible to every subsequent get: putting v1 then v2
under the same key and reading back returns v2, and a get right after any put
returns the value just written.  Durability is modelled by the write being in
the returned table before put returns. -/
theorem secret_store_upsert (db : List (String × String)) (K v1 v2 : String)
    (h : db.countP (fun kv => kv.1 == K) ≤ 1) :
    secretsGet (secretsPut (secretsPut db K v1) K v2) K = some v2 ∧
    (∀ k v, secretsGet (secretsPut db k v) k = some v) ∧
    (secretsPut db K v1).countP (fun kv => kv.1 == K) = 1 ∧
    (secretsPut (secretsPut db K v1) K v2).countP (fun kv => kv.1 == K) = 1 := by
  refine ⟨secretsGet_put_self _ _ _, fun k v => secretsGet_put_self _ _ _,
    countKey_put _ _ _ h, countKey_put _ _ _ ?_⟩
  rw [countKey_put db K v1 h]

/-- Witness for C4 at a concrete table holding the key and one other row. -/
theorem secret_store_upsert_witness :
    secretsGet (secretsPut (secretsPut [("K", "v0"), ("X", "y")] "K" "v1") "K" "v2")
      "K" = some "v2" :=
  (secret_store_upsert [("K", "v0"), ("X", "y")] "K" "v1" "v2" (by decide)).1

/-- Calling add_chat with no argument keeps the state unchanged by the
credential-update step. -/
theorem upd_key_none (s : AIState) : upd_key s none = s := by
  simp [upd_key]

/-- With a credential known, add_chat called with no argument replaces the
session using the current provider and the stored credential, upserting the
credential under the single shared key. -/
theorem add_chat_none_fields (s : AIState) (h : s.api_key ≠ "") :
    (add_chat s none).1.chat = some ⟨s.current_provider, s.api_key, s.nextId⟩ ∧
    (add_chat s none).1.api_key = s.api_key ∧
    (add_chat s none).1.secrets =
      secretsPut s.secrets "GEMINI_API_KEY" s.api_key ∧
    (add_chat s none).1.placeholderShown = false := by
  rw [add_chat, upd_key_none, if_neg h]
  cases hc : s.chat with
  | some c => simp [replace_session, hc]
  | none => simp [replace_session, hc]

/-- Claim C3 counterexample: with an empty secret store, activating the default
provider with credential a1 and then switching to a provider that has no stored
credential of its own does not yield Placeholder; the controller stays Active,
constructing a session for the new provider from the shared credential a1. -/
theorem provider_switch_not_placeholder :
    (set_current_provider (add_chat (ai_init []).1 (some "a1")).1
        "Provider B").1.chat = some ⟨"Provider B", "a1", 1⟩ ∧
    (set_current_provider (add_chat (ai_init []).1 (some "a1")).1
        "Provider B").1.placeholderShown = false := by
  decide

/-- Claim C3 (amended): the providers share the single stored credential key
GEMINI_API_KEY and the single in-memory credential attribute, so switching to
any other provider while a credential is known yields state Active for the new
provider with the same credential, without re-prompting; in particular
switching back to the first provider restores an Active session with the
original credential. -/
theorem provider_switch_shared_key (s : AIState) (p : String)
    (hk : s.api_key ≠ "") (hp : p ≠ s.current_provider) :
    (set_current_provider s p).1.chat = some ⟨p, s.api_key, s.nextId⟩ ∧
    (set_current_provider s p).1.api_key = s.api_key ∧
    secretsGet (set_current_provider s p).1.secrets "GEMINI_API_KEY" =
      some s.api_key ∧
    (set_current_provider s p).1.placeholderShown = false := by
  rw [set_current_provider, if_neg hp]
  have h := add_chat_none_fields { s with current_provider := p } hk
  exact ⟨h.1, h.2.1, by rw [h.2.2.1]; exact secretsGet_put_self _ _ _, h.2.2.2⟩

/-- Witness for the amended C3: after activating with a1 and switching away,
switching back to the first provider yields an Active session for it with the
credential a1. -/
theorem provider_switch_shared_key_witness :
    (set_current_provider
        (set_current_provider (add_chat (ai_init []).1 (some "a1")).1
          "Provider B").1 "Gemini 1.5 Flash").1.chat =
      some ⟨"Gemini 1.5 Flash", "a1", 2⟩ :=
  (provider_switch_shared_key
    (set_current_provider (add_chat (ai_init []).1 (some "a1")).1 "Provider B").1
    "Gemini 1.5 Flash" (by decide) (by decide)).1

/-- Claim C6: calling set_current_provider with the name of the current
provider is an idempotent no-op: the state is returned unchanged with no
events, so the previously constructed session object is identical afterwards. -/
theorem set_provider_same_noop (s : AIState) (p : String)
    (h : p = s.current_provider) :
    set_current_provider s p = (s, []) ∧
    (set_current_provider s p).1.chat = s.chat := by
  constructor
  · rw [set_current_provider, if_pos h]
  · rw [set_current_provider, if_pos h]

/-- Witness for C6 at the freshly constructed view and its default provider. -/
theorem set_provider_same_noop_witness :
    set_current_provider (ai_init []).1 "Gemini 1.5 Flash" = ((ai_init []).1, []) :=
  (set_provider_same_noop (ai_init []).1 "Gemini 1.5 Flash" (by decide)).1

/-- Claim C7: when a session exists and the in-place reset of the provider
raises, the error is caught at the controller boundary, new_chat still returns
an ordinary state, and the controller falls through to add_chat, constructing a
brand-new session when a credential is known; when the in-place reset succeeds,
new_chat returns the state unchanged and no new session is constructed. -/
theorem new_chat_reset_fallback (s : AIState) (c : Session)
    (h : s.chat = some c) :
    chat_reset_inplace false = Except.error "reset failed" ∧
    new_chat s false = add_chat s none ∧
    (s.api_key ≠ "" →
      (new_chat s false).1.chat =
        some ⟨s.current_provider, s.api_key, s.nextId⟩) ∧
    new_chat s true = (s, []) := by
  have hf : new_chat s false = add_chat s none := by
    simp [new_chat, h, chat_reset_inplace]
  refine ⟨rfl, hf, ?_, by simp [new_chat, h, chat_reset_inplace]⟩
  intro hk
  rw [hf]
  exact (add_chat_none_fields s hk).1

/-- Witness for C7: a failing reset on a live session yields a fresh session
with a new identity for the same provider and credential. -/
theorem new_chat_reset_fallback_witness :
    (new_chat (add_chat (ai_init []).1 (some "k1")).1 false).1.chat =
      some ⟨"Gemini 1.5 Flash", "k1", 1⟩ :=
  (new_chat_reset_fallback (add_chat (ai_init []).1 (some "k1")).1
    ⟨"Gemini 1.5 Flash", "k1", 0⟩ (by decide)).2.2.1 (by decide)

/-- Claim C10: an add_chat call with an absent or empty credential argument
while the stored credential attribute is empty shows the placeholder and
returns without writing to the secrets table and without constructing any
session. -/
theorem add_chat_without_credential (s : AIState) (k : Option String)
    (hs : s.api_key = "") (hk : k = none ∨ k = some "") :
    (add_chat s k).1.secrets = s.secrets ∧
    (add_chat s k).1.placeholderShown = true ∧
    (add_chat s k).1.chat = none ∧
    ∀ n, Ev.construct n ∉ (add_chat s k).2 := by
  have hu : upd_key s k = s := by
    rcases hk with rfl | rfl
    · simp [upd_key]
    · simp [upd_key]
  rw [add_chat, hu, if_pos hs]
  cases hc : s.chat with
  | some c => simp [add_placeholder, hc]
  | none => simp [add_placeholder, hc]

/-- Witness for C10 at the freshly constructed view over an empty store. -/
theorem add_chat_without_credential_witness :
    (add_chat (ai_init []).1 none).1.secrets = (ai_init []).1.secrets ∧
    (add_chat (ai_init []).1 none).1.placeholderShown = true ∧
    (add_chat (ai_init []).1 none).1.chat = none := by
  have h := add_chat_without_credential (ai_init []).1 none (by decide) (Or.inl rfl)
  exact ⟨h.1, h.2.1, h.2.2.1⟩

/-- Appending one event to a log folds one liveness step. -/
theorem aliveAfter_snoc (log : List Ev) (e : Ev) :
    aliveAfter (log ++ [e]) = aliveStep (aliveAfter log) e := by
  simp [aliveAfter, List.foldl_append]

/-- A split of a log extended by one event is either a split of the log or the
whole extended log. -/
theorem split_of_snoc {α : Type} {pre t log : List α} {e : α}
    (h : pre ++ t = log ++ [e]) :
    (∃ t2, pre ++ t2 = log) ∨ pre = log ++ [e] := by
  rcases List.eq_nil_or_concat t with rfl | ⟨t2, x, rfl⟩
  · right
    simpa using h
  · left
    rw [List.concat_eq_append, ← List.append_assoc] at h
    have h2 := List.append_inj' h rfl
    exact ⟨t2, h2.1⟩

/-- The empty log is bounded. -/
theorem boundedLog_nil : BoundedLog [] := by
  intro pre t h
  have hp : pre = [] := by
    cases pre with
    | nil => rfl
    | cons a l => simp at h
  simp [hp, aliveAfter]

/-- Extending a bounded log by one event whose result also respects the bound
keeps the log bounded. -/
theorem boundedLog_snoc {log : List Ev} {e : Ev} (hb : BoundedLog log)
    (he : (aliveStep (aliveAfter log) e).length ≤ 1) :
    BoundedLog (log ++ [e]) := by
  intro pre t h
  rcases split_of_snoc h with ⟨t2, h2⟩ | rfl
  · exact hb pre t2 h2
  · rw [aliveAfter_snoc]
    exact he

/-- Liveness bookkeeping for add_placeholder: a bounded log matching the state
stays bounded and matches the new state. -/
theorem add_placeholder_ok {log : List Ev} {s : AIState}
    (hm : aliveAfter log = chatIds s) (hb : BoundedLog log) :
    BoundedLog (log ++ (add_placeholder s).2) ∧
      aliveAfter (log ++ (add_placeholder s).2) = chatIds (add_placeholder s).1 := by
  cases hc : s.chat with
  | none =>
    have h0 : aliveAfter log = [] := by simpa [chatIds, hc] using hm
    constructor
    · simpa [add_placeholder, hc] using hb
    · simp [add_placeholder, hc, chatIds, h0]
  | some c =>
    have h1 : aliveAfter log = [c.sid] := by simpa [chatIds, hc] using hm
    have hstep : aliveStep (aliveAfter log) (Ev.destroy c.sid) = [] := by
      rw [h1]
      simp [aliveStep]
    constructor
    · simpa [add_placeholder, hc] using
        boundedLog_snoc hb (by rw [hstep]; simp)
    · simp [add_placeholder, hc, chatIds, aliveAfter_snoc, hstep]

/-- Liveness bookkeeping for replace_session: the destroy of the previous
session comes first in the emitted events, the construct of the new session
second, and a bounded matching log stays bounded and matching. -/
theorem replace_session_ok {log : List Ev} {s : AIState}
    (hm : aliveAfter log = chatIds s) (hb : BoundedLog log) :
    BoundedLog (log ++ (replace_session s).2) ∧
      aliveAfter (log ++ (replace_session s).2) = chatIds (replace_session s).1 := by
  cases hc : s.chat with
  | none =>
    have h0 : aliveAfter log = [] := by simpa [chatIds, hc] using hm
    have hstep : aliveStep (aliveAfter log) (Ev.construct s.nextId) = [s.nextId] := by
      rw [h0]
      rfl
    constructor
    · simpa [replace_session, hc] using
        boundedLog_snoc hb (by rw [hstep]; simp)
    · simp [replace_session, hc, chatIds, aliveAfter_snoc, hstep]
  | some c =>
    have h1 : aliveAfter log = [c.sid] := by simpa [chatIds, hc] using hm
    have hd : aliveStep (aliveAfter log) (Ev.destroy c.sid) = [] := by
      rw [h1]
      simp [aliveStep]
    have hbd : BoundedLog (log ++ [Ev.destroy c.sid]) :=
      boundedLog_snoc hb (by rw [hd]; simp)
    have hda : aliveAfter (log ++ [Ev.destroy c.sid]) = [] := by
      rw [aliveAfter_snoc, hd]
    have hc2 : aliveStep (aliveAfter (log ++ [Ev.destroy c.sid]))
        (Ev.construct s.nextId) = [s.nextId] := by
      rw [hda]
      rfl
    have hsplit : log ++ [Ev.destroy c.sid, Ev.construct s.nextId] =
        (log ++ [Ev.destroy c.sid]) ++ [Ev.construct s.nextId] := by simp
    constructor
    · rw [show (replace_session s).2 = [Ev.destroy c.sid, Ev.construct s.nextId] by
          simp [replace_session, hc], hsplit]
      exact boundedLog_snoc hbd (by rw [hc2]; simp)
    · rw [show (replace_session s).2 = [Ev.destroy c.sid, Ev.construct s.nextId] by
          simp [replace_session, hc], hsplit, aliveAfter_snoc, hc2]
      simp [replace_session, hc, chatIds]

/-- The credential-update step never touches the chat field. -/
theorem upd_key_chat (s : AIState) (k : Option String) :
    (upd_key s k).chat = s.chat := by
  unfold upd_key
  split <;> rfl

/-- States with the same chat field carry the same live session identities. -/
theorem chatIds_eq_of_chat_eq {s1 s2 : AIState} (h : s1.chat = s2.chat) :
    chatIds s1 = chatIds s2 := by
  rw [chatIds, chatIds, h]

/-- Liveness bookkeeping for add_chat. -/
theorem add_chat_ok {log : List Ev} {s : AIState} (k : Option String)
    (hm : aliveAfter log = chatIds s) (hb : BoundedLog log) :
    BoundedLog (log ++ (add_chat s k).2) ∧
      aliveAfter (log ++ (add_chat s k).2) = chatIds (add_chat s k).1 := by
  have hmu : aliveAfter log = chatIds (upd_key s k) :=
    hm.trans (chatIds_eq_of_chat_eq (upd_key_chat s k).symm)
  rw [add_chat]
  split
  · exact add_placeholder_ok hmu hb
  · exact replace_session_ok (hmu.trans (chatIds_eq_of_chat_eq rfl)) hb

/-- Liveness bookkeeping for one controller operation. -/
theorem step_ok {log : List Ev} {s : AIState} (op : Op)
    (hm : aliveAfter log = chatIds s) (hb : BoundedLog log) :
    BoundedLog (log ++ (step s op).2) ∧
      aliveAfter (log ++ (step s op).2) = chatIds (step s op).1 := by
  cases op with
  | addChat k => exact add_chat_ok k hm hb
  | addPlaceholder => exact add_placeholder_ok hm hb
  | setProvider p =>
    by_cases hp : p = s.current_provider
    · constructor
      · simpa [step, set_current_provider, hp] using hb
      · simpa [step, set_current_provider, hp] using hm
    · have hm2 : aliveAfter log = chatIds { s with current_provider := p } := by
        rw [hm]
        rfl
      have h := add_chat_ok none hm2 hb
      constructor
      · simpa [step, set_current_provider, hp] using h.1
      · simpa [step, set_current_provider, hp] using h.2
  | newChat ok =>
    cases hc : s.chat with
    | some c =>
      cases ok with
      | true =>
        constructor
        · simpa [step, new_chat, hc, chat_reset_inplace] using hb
        · simpa [step, new_chat, hc, chat_reset_inplace] using hm
      | false =>
        have h := add_chat_ok none hm hb
        constructor
        · simpa [step, new_chat, hc, chat_reset_inplace] using h.1
        · simpa [step, new_chat, hc, chat_reset_inplace] using h.2
    | none =>
      have h := add_chat_ok none hm hb
      constructor
      · simpa [step, new_chat, hc] using h.1
      · simpa [step, new_chat, hc] using h.2

/-- Liveness bookkeeping along a whole run. -/
theorem runFrom_ok (ops : List Op) {s : AIState} {log : List Ev}
    (hm : aliveAfter log = chatIds s) (hb : BoundedLog log) :
    BoundedLog (runFrom s log ops).2 ∧
      aliveAfter (runFrom s log ops).2 = chatIds (runFrom s log ops).1 := by
  induction ops generalizing s log with
  | nil => exact ⟨hb, hm⟩
  | cons op rest ih =>
    have h := step_ok op hm hb
    simpa [runFrom] using ih h.2 h.1

/-- The constructor leaves a bounded log matching the constructed state. -/
theorem ai_init_ok (db : List (String × String)) :
    BoundedLog (ai_init db).2 ∧
      aliveAfter (ai_init db).2 = chatIds (ai_init db).1 := by
  have hm0 : aliveAfter ([] : List Ev) = chatIds (aiStart db) := rfl
  cases hg : secretsGet db "GEMINI_API_KEY" with
  | some k =>
    have h := add_chat_ok (some k) hm0 boundedLog_nil
    constructor
    · simpa [ai_init, hg] using h.1
    · simpa [ai_init, hg] using h.2
  | none =>
    have h := add_placeholder_ok hm0 boundedLog_nil
    constructor
    · simpa [ai_init, hg] using h.1
    · simpa [ai_init, hg] using h.2

/-- Claim C5: in the ordered event log of any run of the controller, the
teardown of a replaced session is recorded before the construction of its
successor, so at every point of the log, including every point inside a single
activation, at most one session is alive for the owning view. -/
theorem at_most_one_live_session (db : List (String × String)) (ops : List Op)
    (pre t : List Ev) (h : pre ++ t = (runLog db ops).2) :
    (aliveAfter pre).length ≤ 1 := by
  have hr := runFrom_ok ops (ai_init_ok db).2 (ai_init_ok db).1
  exact hr.1 pre t (by simpa [runLog] using h)

/-- Witness for C5: a run that activates from a stored credential and then
switches provider, cut right after the teardown of the first session. -/
theorem at_most_one_live_session_witness :
    (aliveAfter [Ev.construct 0, Ev.destroy 0]).length ≤ 1 :=
  at_most_one_live_session [("GEMINI_API_KEY", "a1")] [Op.setProvider "B"]
    [Ev.construct 0, Ev.destroy 0] [Ev.construct 1] (by decide)

end Biscuit
